import Mathlib

/-!
Verification development for the docx-to-pdf converter.

The Rust sources are shallowly embedded:
* `src/pdf_stream_writer.rs` — `PdfStreamWriter` below, with the byte sink
  modelled as a `List Char` (the program only ever writes ASCII framing around
  caller-supplied bodies, and `stream_position` is the current length);
* `src/pdf_document.rs` — `PdfDocument` below;
* `src/image_preprocessor.rs` — `process_single_image` / `preprocess_images`;
* `src/main.rs` (`parse_document_xml`) — the event walker `walkStep` and
  friends.

Machine integers (`u32` ids, `u64` offsets) are modelled as `Nat`: the program
only ever increments ids by one and records stream positions, so no overflow
wrapping is observable for any input a reviewer would trace by hand.
-/

/-- The `%PDF-1.7\n` header written by `PdfStreamWriter::new`
(pdf_stream_writer.rs:12). -/
def pdfHeader : List Char := "%PDF-1.7\n".toList

/-- The `"{id} 0 obj\n"` start marker written by `_new_object`
(pdf_stream_writer.rs:99) and by `write_object_with_reserved_id`
(pdf_stream_writer.rs:88). -/
def objHeader (id : Nat) : List Char := (Nat.repr id).toList ++ " 0 obj\n".toList

/-- The `"\nendobj\n"` end marker written by `_finish_object`
(pdf_stream_writer.rs:104) and by `write_object_with_reserved_id`
(pdf_stream_writer.rs:90). -/
def endObjMark : List Char := "\nendobj\n".toList

/-- State of `PdfStreamWriter` (pdf_stream_writer.rs:4-8).

`sink` holds the bytes written so far (the sink's stream position is
`sink.length`), `offsets` is the `offsets: Vec<u64>`, `next_obj_id` the id
counter.

`writtenIds` and `reservedWrites` are ghost trace fields, not present in the
source: `writtenIds` records, in order, every id for which a `"{id} 0 obj"`
object frame was emitted (by either write path), and `reservedWrites` records
the ids passed to `write_object_with_reserved_id`.  They only observe the
run; no emitted byte depends on them. -/
structure PdfStreamWriter where
  sink : List Char
  offsets : List Nat
  next_obj_id : Nat
  writtenIds : List Nat
  reservedWrites : List Nat
deriving Repr

namespace PdfStreamWriter

/-- `PdfStreamWriter::new` (pdf_stream_writer.rs:11-18): writes the header,
starts with no offsets and `next_obj_id = 1`. -/
def new : PdfStreamWriter :=
  { sink := pdfHeader
    offsets := []
    next_obj_id := 1
    writtenIds := []
    reservedWrites := [] }

/-- `_new_object` (pdf_stream_writer.rs:94-101): allocates the next id,
records the current position as its offset, writes the start marker. -/
def _new_object (w : PdfStreamWriter) : Nat × PdfStreamWriter :=
  let id := w.next_obj_id
  (id,
    { w with
      sink := w.sink ++ objHeader id
      offsets := w.offsets ++ [w.sink.length]
      next_obj_id := id + 1
      writtenIds := w.writtenIds ++ [id] })

/-- `write_object` (pdf_stream_writer.rs:39-51): `_new_object`, then the body
bytes streamed through unchanged, then `_finish_object`. -/
def write_object (w : PdfStreamWriter) (body : List Char) : Nat × PdfStreamWriter :=
  let (id, w1) := w._new_object
  (id, { w1 with sink := w1.sink ++ body ++ endObjMark })

/-- `write_object_with` (pdf_stream_writer.rs:20-29): like `write_object` but
the closure's output is followed by an extra `"\n"` (line 26) before
`_finish_object`. -/
def write_object_with (w : PdfStreamWriter) (body : List Char) : Nat × PdfStreamWriter :=
  let (id, w1) := w._new_object
  (id, { w1 with sink := w1.sink ++ body ++ "\n".toList ++ endObjMark })

/-- `reserve_object` (pdf_stream_writer.rs:76-80): hands out the next id
without writing anything and without recording an offset. -/
def reserve_object (w : PdfStreamWriter) : Nat × PdfStreamWriter :=
  (w.next_obj_id, { w with next_obj_id := w.next_obj_id + 1 })

/-- `write_object_with_reserved_id` (pdf_stream_writer.rs:82-92): records the
current position as an offset, then frames the body under the given id. -/
def write_object_with_reserved_id (w : PdfStreamWriter) (id : Nat) (body : List Char) :
    PdfStreamWriter :=
  { w with
    sink := w.sink ++ objHeader id ++ body ++ endObjMark
    offsets := w.offsets ++ [w.sink.length]
    writtenIds := w.writtenIds ++ [id]
    reservedWrites := w.reservedWrites ++ [id] }

/-- Zero-padded ten-digit offset field, the `{:010}` of pdf_stream_writer.rs:62. -/
def pad10 (n : Nat) : List Char :=
  List.replicate (10 - (Nat.repr n).length) '0' ++ (Nat.repr n).toList

/-- The object count `finish` writes both in the cross-reference header line
(pdf_stream_writer.rs:59) and as the trailer's `/Size` (pdf_stream_writer.rs:66-67):
`offsets.len() + 1`. -/
def trailerSize (w : PdfStreamWriter) : Nat := w.offsets.length + 1

/-- `finish` (pdf_stream_writer.rs:55-74): appends the xref table (free entry
for id 0 followed by the recorded offsets, in recording order), the trailer,
`startxref` and the end-of-file marker. -/
def finish (w : PdfStreamWriter) (root_id : Nat) : PdfStreamWriter :=
  let xrefStart := w.sink.length
  { w with
    sink := w.sink
      ++ "xref\n".toList
      ++ ("0 " ++ Nat.repr w.trailerSize ++ "\n").toList
      ++ "0000000000 65535 f \n".toList
      ++ (w.offsets.map (fun off => pad10 off ++ " 00000 n \n".toList)).flatten
      ++ ("trailer << /Size " ++ Nat.repr w.trailerSize ++ " /Root "
            ++ Nat.repr root_id ++ " 0 R >>\n").toList
      ++ "startxref\n".toList
      ++ (Nat.repr xrefStart ++ "\n").toList
      ++ "%%EOF\n".toList }

/-- The offset the finished file's cross-reference table ascribes to object
id `i`: `finish` emits the free entry for id 0 and then the recorded offsets
in order (pdf_stream_writer.rs:60-63), so a reader parsing the table back
resolves id `i` to the `(i-1)`-th recorded offset. -/
def xrefEntryOffset (w : PdfStreamWriter) (i : Nat) : Option Nat :=
  w.offsets.get? (i - 1)

/-- The `"{id} 0 obj"` start-marker text (without the trailing newline), as it
appears in the output for object `id`. -/
def startMarker (id : Nat) : List Char := (Nat.repr id).toList ++ " 0 obj".toList

/-- `occursAt sink pos pat` states that the byte pattern `pat` occurs in
`sink` starting exactly at position `pos`. -/
def occursAt (sink : List Char) (pos : Nat) (pat : List Char) : Prop :=
  (sink.drop pos).take pat.length = pat

instance (sink : List Char) (pos : Nat) (pat : List Char) :
    Decidable (occursAt sink pos pat) := by
  unfold occursAt; infer_instance

end PdfStreamWriter

/-- One call of the `PdfStreamWriter` public interface, for quantifying over
arbitrary call sequences (claim C2's "for every sequence of calls"). -/
inductive WCall where
  | reserve : WCall
  | write (body : List Char) : WCall
  | writeWith (body : List Char) : WCall
  | writeReserved (id : Nat) (body : List Char) : WCall

/-- Effect of one interface call on the writer (discarding the returned id,
which the writer state already determines). -/
def wStep (w : PdfStreamWriter) (c : WCall) : PdfStreamWriter :=
  match c with
  | .reserve => (w.reserve_object).2
  | .write body => (w.write_object body).2
  | .writeWith body => (w.write_object_with body).2
  | .writeReserved id body => w.write_object_with_reserved_id id body

/-- Run a call sequence against a fresh writer. -/
def runCalls (cs : List WCall) : PdfStreamWriter :=
  cs.foldl wStep PdfStreamWriter.new

/-- Number of ids a call sequence makes the writer issue
(`reserve_object`, `write_object` and `write_object_with` each advance
`next_obj_id`; `write_object_with_reserved_id` does not). -/
def numIssued : List WCall → Nat
  | [] => 0
  | .reserve :: cs => numIssued cs + 1
  | .write _ :: cs => numIssued cs + 1
  | .writeWith _ :: cs => numIssued cs + 1
  | .writeReserved _ _ :: cs => numIssued cs

/-- Number of offset entries a call sequence records (every call except
`reserve_object` pushes exactly one offset). -/
def numOffsets : List WCall → Nat
  | [] => 0
  | .reserve :: cs => numOffsets cs
  | .write _ :: cs => numOffsets cs + 1
  | .writeWith _ :: cs => numOffsets cs + 1
  | .writeReserved _ _ :: cs => numOffsets cs + 1

/-- Number of `reserve_object` calls in a sequence. -/
def numReserve : List WCall → Nat
  | [] => 0
  | .reserve :: cs => numReserve cs + 1
  | .write _ :: cs => numReserve cs
  | .writeWith _ :: cs => numReserve cs
  | .writeReserved _ _ :: cs => numReserve cs

/-- Number of `write_object_with_reserved_id` calls in a sequence. -/
def numReservedWrites : List WCall → Nat
  | [] => 0
  | .reserve :: cs => numReservedWrites cs
  | .write _ :: cs => numReservedWrites cs
  | .writeWith _ :: cs => numReservedWrites cs
  | .writeReserved _ _ :: cs => numReservedWrites cs + 1

theorem wStep_next_obj_id (w : PdfStreamWriter) (c : WCall) :
    (wStep w c).next_obj_id =
      w.next_obj_id + (numIssued [c]) := by
  cases c <;>
    simp [wStep, numIssued, PdfStreamWriter.reserve_object,
      PdfStreamWriter.write_object, PdfStreamWriter.write_object_with,
      PdfStreamWriter._new_object, PdfStreamWriter.write_object_with_reserved_id]

theorem wStep_offsets_length (w : PdfStreamWriter) (c : WCall) :
    (wStep w c).offsets.length = w.offsets.length + (numOffsets [c]) := by
  cases c <;>
    simp [wStep, numOffsets, PdfStreamWriter.reserve_object,
      PdfStreamWriter.write_object, PdfStreamWriter.write_object_with,
      PdfStreamWriter._new_object, PdfStreamWriter.write_object_with_reserved_id]

theorem foldl_wStep_next_obj_id (cs : List WCall) :
    ∀ w : PdfStreamWriter, (cs.foldl wStep w).next_obj_id = w.next_obj_id + numIssued cs := by
  induction cs with
  | nil => intro w; simp [numIssued]
  | cons c cs ih =>
    intro w
    rw [List.foldl_cons, ih, wStep_next_obj_id]
    cases c <;> simp [numIssued] <;> omega

theorem foldl_wStep_offsets_length (cs : List WCall) :
    ∀ w : PdfStreamWriter, (cs.foldl wStep w).offsets.length = w.offsets.length + numOffsets cs := by
  induction cs with
  | nil => intro w; simp [numOffsets]
  | cons c cs ih =>
    intro w
    rw [List.foldl_cons, ih, wStep_offsets_length]
    cases c <;> simp [numOffsets] <;> omega

theorem numIssued_add_reservedWrites (cs : List WCall) :
    numIssued cs + numReservedWrites cs = numOffsets cs + numReserve cs := by
  induction cs with
  | nil => rfl
  | cons c cs ih =>
    cases c <;> simp [numIssued, numReservedWrites, numOffsets, numReserve] <;> omega

/-- The offset table is well-formed: every recorded offset points strictly
inside the bytes written so far, and the offsets are strictly increasing. -/
def goodOffsets (w : PdfStreamWriter) : Prop :=
  (∀ o ∈ w.offsets, o < w.sink.length) ∧ w.offsets.Pairwise (· < ·)

theorem objHeader_length_pos (id : Nat) : 0 < (objHeader id).length := by
  unfold objHeader
  rw [List.length_append]
  have h : (" 0 obj\n".toList).length = 7 := rfl
  omega

theorem snoc_bound_pairwise (extlen : Nat) {offs : List Nat} {slen : Nat} (hpos : 0 < extlen)
    (hb : ∀ o ∈ offs, o < slen) (hp : offs.Pairwise (· < ·)) :
    (∀ o ∈ offs ++ [slen], o < slen + extlen) ∧ (offs ++ [slen]).Pairwise (· < ·) := by
  constructor
  · intro o ho
    rcases List.mem_append.1 ho with h | h
    · exact lt_of_lt_of_le (hb o h) (Nat.le_add_right _ _)
    · rw [List.mem_singleton] at h
      omega
  · rw [List.pairwise_append]
    refine ⟨hp, List.pairwise_singleton _ _, ?_⟩
    intro x hx y hy
    rw [List.mem_singleton] at hy
    subst hy
    exact hb x hx

theorem goodOffsets_wStep (w : PdfStreamWriter) (c : WCall) (h : goodOffsets w) :
    goodOffsets (wStep w c) := by
  obtain ⟨hb, hp⟩ := h
  cases c with
  | reserve => exact ⟨hb, hp⟩
  | write body =>
    have hlen := objHeader_length_pos w.next_obj_id
    have h2 := snoc_bound_pairwise
      ((objHeader w.next_obj_id).length + (body.length + endObjMark.length))
      (by omega) hb hp
    refine ⟨?_, h2.2⟩
    intro o ho
    have := h2.1 o ho
    simp only [wStep, PdfStreamWriter.write_object, PdfStreamWriter._new_object,
      List.length_append]
    omega
  | writeWith body =>
    have hlen := objHeader_length_pos w.next_obj_id
    have h2 := snoc_bound_pairwise
      ((objHeader w.next_obj_id).length
        + (body.length + ("\n".toList.length + endObjMark.length)))
      (by omega) hb hp
    refine ⟨?_, h2.2⟩
    intro o ho
    have := h2.1 o ho
    simp only [wStep, PdfStreamWriter.write_object_with, PdfStreamWriter._new_object,
      List.length_append]
    omega
  | writeReserved id body =>
    have hlen := objHeader_length_pos id
    have h2 := snoc_bound_pairwise
      ((objHeader id).length + (body.length + endObjMark.length))
      (by omega) hb hp
    refine ⟨?_, h2.2⟩
    intro o ho
    have := h2.1 o ho
    simp only [wStep, PdfStreamWriter.write_object_with_reserved_id,
      List.length_append]
    omega

theorem goodOffsets_foldl (cs : List WCall) :
    ∀ w : PdfStreamWriter, goodOffsets w → goodOffsets (cs.foldl wStep w) := by
  induction cs with
  | nil => intro w h; exact h
  | cons c cs ih =>
    intro w h
    rw [List.foldl_cons]
    exact ih _ (goodOffsets_wStep w c h)

theorem goodOffsets_runCalls (cs : List WCall) : goodOffsets (runCalls cs) := by
  apply goodOffsets_foldl
  exact ⟨by intro o ho; simp [PdfStreamWriter.new] at ho, by simp [PdfStreamWriter.new]⟩

/-- C2 (counterexample): a single `reserve_object` call issues one id
(`next_obj_id - 1 = 1`) but records no offset (zero entries), so "the number
of recorded byte offsets equals the number of ids issued (next_obj_id minus
1)" is false for this call sequence. -/
theorem c2_counterexample :
    (runCalls [WCall.reserve]).offsets.length = 0 ∧
      (runCalls [WCall.reserve]).next_obj_id - 1 = 1 ∧
      ((runCalls [WCall.reserve]).offsets.length
          == (runCalls [WCall.reserve]).next_obj_id - 1) = false := by
  decide

/-- C2 (amended): for every call sequence in which the caller performs exactly
as many `write_object_with_reserved_id` calls as `reserve_object` calls (the
documented "exactly once per reserved id" discipline), the number of recorded
offsets equals the number of ids issued (`next_obj_id - 1`), and the recorded
offsets are strictly increasing; the association of offsets to ids is
positional in write order, not indexed by id. -/
theorem c2_amended (cs : List WCall) (h : numReservedWrites cs = numReserve cs) :
    (runCalls cs).offsets.length = (runCalls cs).next_obj_id - 1 ∧
      (runCalls cs).offsets.Pairwise (· < ·) := by
  refine ⟨?_, (goodOffsets_runCalls cs).2⟩
  have h1 := foldl_wStep_next_obj_id cs PdfStreamWriter.new
  have h2 := foldl_wStep_offsets_length cs PdfStreamWriter.new
  have h3 := numIssued_add_reservedWrites cs
  have e1 : (PdfStreamWriter.new).next_obj_id = 1 := rfl
  have e2 : (PdfStreamWriter.new).offsets.length = 0 := rfl
  rw [e1] at h1
  rw [e2] at h2
  unfold runCalls
  omega

theorem c2_amended_witness :
    numReservedWrites [WCall.reserve, WCall.write [], WCall.writeReserved 1 []] =
        numReserve [WCall.reserve, WCall.write [], WCall.writeReserved 1 []] ∧
      ((runCalls [WCall.reserve, WCall.write [], WCall.writeReserved 1 []]).offsets.length =
          (runCalls [WCall.reserve, WCall.write [],
            WCall.writeReserved 1 []]).next_obj_id - 1 ∧
        (runCalls [WCall.reserve, WCall.write [],
          WCall.writeReserved 1 []]).offsets.Pairwise (· < ·)) :=
  ⟨by decide, c2_amended _ (by decide)⟩

/-- Escaping of literal parentheses in `new_text_obj`
(pdf_document.rs:32): `text.replace('(', "\\(").replace(')', "\\)")`.
The second replacement only touches `')'` characters, which the first one
never produces, so the two sequential passes equal this single pass. -/
def escapeParens : List Char → List Char
  | [] => []
  | c :: cs =>
    if c = '(' then '\\' :: '(' :: escapeParens cs
    else if c = ')' then '\\' :: ')' :: escapeParens cs
    else c :: escapeParens cs

/-- State of `PdfDocument` (pdf_document.rs:5-12): the writer, the object id
reserved for the `/Pages` root at creation, and the page ids collected so
far. -/
structure PdfDocument where
  writer : PdfStreamWriter
  pages_id : Nat
  page_ids : List Nat

namespace PdfDocument

/-- `PdfDocument::new` (pdf_document.rs:18-26): fresh writer, then reserve an
id for the pages root. -/
def new : PdfDocument :=
  let w := PdfStreamWriter.new
  let (pid, w1) := w.reserve_object
  { writer := w1, pages_id := pid, page_ids := [] }

/-- `new_text_obj` (pdf_document.rs:29-47). Lengths are byte lengths in the
source; the embedded text is ASCII-framed so the char count used here agrees
for ASCII input, and the claims never depend on the numeral itself. -/
def new_text_obj (d : PdfDocument) (text : String) : Nat × PdfDocument :=
  let stream_content : List Char :=
    "BT /F1 12 Tf 0 720 Td (".toList ++ escapeParens text.toList ++ ") Tj ET".toList
  let buf : List Char :=
    ("<< /Length " ++ Nat.repr stream_content.length ++ " >>\n").toList
      ++ "stream\n".toList ++ stream_content ++ "\nendstream\n".toList
  let (obj_id, w1) := d.writer.write_object buf
  (obj_id, { d with writer := w1 })

/-- `new_img_obj` (pdf_document.rs:50-97): writes the image XObject, then a
companion content stream drawing it, returning both ids.  The source builds
the dictionary as `img_dict` and then refers to it as `final_dict` (a naming
slip; the dictionary built at lines 65-75 is the one prepended at lines
77-78), and the `len` parameter is accepted but unused (the byte length is
recomputed at line 74); both are reproduced faithfully here. -/
def new_img_obj (d : PdfDocument) (image_data : List Char) (wpx hpx : Nat) (_len : Nat) :
    (Nat × Nat) × PdfDocument :=
  let img_dict : List Char :=
    ("<< /Type /XObject /Subtype /Image /Width " ++ Nat.repr wpx
      ++ " /Height " ++ Nat.repr hpx
      ++ " /ColorSpace /DeviceRGB /BitsPerComponent 8 /Filter /DCTDecode /Length "
      ++ Nat.repr image_data.length ++ " >>\nstream\n").toList
  let composed := img_dict ++ image_data ++ "\nendstream".toList
  let (image_obj_id, w1) := d.writer.write_object composed
  let content : String :=
    "q\n500 0 0 500 0 0 cm\n/Im" ++ Nat.repr image_obj_id ++ " Do\nQ\n"
  let content_stream : List Char :=
    ("<< /Length " ++ Nat.repr content.length ++ " >>\nstream\n"
      ++ content ++ "\nendstream").toList
  let (content_stream_id, w2) := w1.write_object content_stream
  ((image_obj_id, content_stream_id), { d with writer := w2 })

/-- `new_page_obj` (pdf_document.rs:99-155): page dictionary with
`/Parent pages_id`, text content streams followed by image content streams,
and an `/XObject` resource per image named `ImN` after its object id. -/
def new_page_obj (d : PdfDocument) (current_page_objs : List Nat)
    (current_page_img_objs : List (Nat × Nat)) : Nat × PdfDocument :=
  let all_content_streams := current_page_objs ++ current_page_img_objs.map Prod.snd
  let contents := String.intercalate " "
    (all_content_streams.map (fun id => Nat.repr id ++ " 0 R"))
  let resources :=
    if current_page_img_objs.isEmpty then ""
    else
      let xobject_dict := "<< "
        ++ String.join (current_page_img_objs.map
            (fun p => "/Im" ++ Nat.repr p.1 ++ " " ++ Nat.repr p.1 ++ " 0 R "))
        ++ ">>"
      "/Resources << /XObject " ++ xobject_dict ++ " >>"
  let page_dict := "<< /Type /Page /Parent " ++ Nat.repr d.pages_id
    ++ " 0 R /MediaBox [0 0 595 842] " ++ resources
    ++ " /Contents [" ++ contents ++ "] >>"
  let (page_id, w1) := d.writer.write_object page_dict.toList
  (page_id, { d with writer := w1, page_ids := d.page_ids ++ [page_id] })

/-- Result of `finish_document`: the final writer (after the trailer step)
plus, for observation, the id at which the pages dictionary body was actually
written (the rebound `pages_id` of pdf_document.rs:177) and the catalog id. -/
structure FinishOut where
  writer : PdfStreamWriter
  pages_obj_id : Nat
  catalog_id : Nat

/-- `finish_document` (pdf_document.rs:157-185): builds the `/Pages`
dictionary, asserts `pages_id == 1` (modelled as the `none` branch — the Rust
`assert_eq!` panics), writes the pages dictionary with `write_object` (which
allocates a fresh id rebound over the local `pages_id`), writes the catalog
referencing that fresh id, and hands the catalog id to `finish`. -/
def finish_document (d : PdfDocument) : Option FinishOut :=
  let kids := String.join (d.page_ids.map (fun id => Nat.repr id ++ " 0 R "))
  let pages_dict := "<< /Type /Pages /Count " ++ Nat.repr d.page_ids.length
    ++ " /Kids [" ++ kids ++ "] >>"
  if d.pages_id = 1 then
    let (pages_id2, w1) := d.writer.write_object pages_dict.toList
    let catalog_dict := "<< /Type /Catalog /Pages " ++ Nat.repr pages_id2 ++ " 0 R >>"
    let (catalog_id, w2) := w1.write_object catalog_dict.toList
    some { writer := w2.finish catalog_id, pages_obj_id := pages_id2, catalog_id := catalog_id }
  else none

end PdfDocument

/-- One document-builder request, for quantifying over whole runs: every id
the writer ever issues in a run of this program comes from the initial
reservation, one of these calls, or the two objects `finish_document`
writes. -/
inductive DocCall where
  | text (s : String) : DocCall
  | img (data : List Char) (wpx hpx len : Nat) : DocCall
  | page (textIds : List Nat) (imgPairs : List (Nat × Nat)) : DocCall

/-- Effect of one builder request on the document. -/
def docStep (d : PdfDocument) : DocCall → PdfDocument
  | .text s => (d.new_text_obj s).2
  | .img data wpx hpx len => (d.new_img_obj data wpx hpx len).2
  | .page t i => (d.new_page_obj t i).2

/-- A whole run of the builder: fresh document, then the given requests. -/
def runDoc (cs : List DocCall) : PdfDocument :=
  cs.foldl docStep PdfDocument.new

/-- Ids issued per request: one per text object, two per image (XObject plus
its content stream), one per page. -/
def docIdCount : List DocCall → Nat
  | [] => 0
  | .text _ :: cs => docIdCount cs + 1
  | .img _ _ _ _ :: cs => docIdCount cs + 2
  | .page _ _ :: cs => docIdCount cs + 1

theorem write_object_snd_next (w : PdfStreamWriter) (b : List Char) :
    ((w.write_object b).2).next_obj_id = w.next_obj_id + 1 := rfl

theorem write_object_snd_offsets_len (w : PdfStreamWriter) (b : List Char) :
    ((w.write_object b).2).offsets.length = w.offsets.length + 1 := by
  show (w.offsets ++ [w.sink.length]).length = w.offsets.length + 1
  simp

theorem two_writes_next (w : PdfStreamWriter) (b1 b2 : List Char) :
    ((((w.write_object b1).2).write_object b2).2).next_obj_id = w.next_obj_id + 2 := by
  rw [write_object_snd_next, write_object_snd_next]

theorem two_writes_offsets_len (w : PdfStreamWriter) (b1 b2 : List Char) :
    ((((w.write_object b1).2).write_object b2).2).offsets.length = w.offsets.length + 2 := by
  rw [write_object_snd_offsets_len, write_object_snd_offsets_len]

theorem docStep_counts (d : PdfDocument) (c : DocCall) :
    (docStep d c).writer.next_obj_id = d.writer.next_obj_id + docIdCount [c] ∧
      (docStep d c).writer.offsets.length = d.writer.offsets.length + docIdCount [c] ∧
      (docStep d c).pages_id = d.pages_id := by
  cases c with
  | text s =>
    exact ⟨write_object_snd_next d.writer _, write_object_snd_offsets_len d.writer _, rfl⟩
  | img data wpx hpx len =>
    exact ⟨two_writes_next d.writer _ _, two_writes_offsets_len d.writer _ _, rfl⟩
  | page t i =>
    exact ⟨write_object_snd_next d.writer _, write_object_snd_offsets_len d.writer _, rfl⟩

theorem runDoc_counts (cs : List DocCall) :
    ∀ d : PdfDocument,
      (cs.foldl docStep d).writer.next_obj_id = d.writer.next_obj_id + docIdCount cs ∧
        (cs.foldl docStep d).writer.offsets.length
          = d.writer.offsets.length + docIdCount cs ∧
        (cs.foldl docStep d).pages_id = d.pages_id := by
  induction cs with
  | nil => intro d; simp [docIdCount]
  | cons c cs ih =>
    intro d
    rw [List.foldl_cons]
    obtain ⟨ih1, ih2, ih3⟩ := ih (docStep d c)
    obtain ⟨s1, s2, s3⟩ := docStep_counts d c
    refine ⟨?_, ?_, by rw [ih3, s3]⟩ <;> cases c <;>
      simp [docIdCount] at * <;> omega

/-- C9: for every completed run (any sequence of text/image/page requests,
then `finish_document`), the object count written in the trailer
(`trailerSize`, i.e. the `/Size` value and the xref count line) equals the
total number of object ids issued by the writer: `next_obj_id - 1`, which
decomposes as 3 ids for the pages root reservation, the written pages
dictionary and the catalog, plus one id per text object, two per image, one
per page (`docIdCount`).  The id-0 free entry is the separate `+1` inside
`trailerSize` together with the one issued id that never received an offset
entry. -/
theorem finish_trailerSize (w : PdfStreamWriter) (r : Nat) :
    (w.finish r).trailerSize = w.trailerSize := rfl

theorem finish_next (w : PdfStreamWriter) (r : Nat) :
    (w.finish r).next_obj_id = w.next_obj_id := rfl

theorem c9_trailer_count (cs : List DocCall) :
    (PdfDocument.finish_document (runDoc cs)).map
        (fun out => (out.writer.trailerSize, out.writer.next_obj_id - 1)) =
      some (3 + docIdCount cs, 3 + docIdCount cs) := by
  obtain ⟨h1, h2, h3⟩ := runDoc_counts cs PdfDocument.new
  have e1 : (PdfDocument.new).writer.next_obj_id = 2 := rfl
  have e2 : (PdfDocument.new).writer.offsets.length = 0 := rfl
  have e3 : (PdfDocument.new).pages_id = 1 := rfl
  rw [e1] at h1
  rw [e2] at h2
  rw [e3] at h3
  unfold runDoc
  unfold PdfDocument.finish_document
  rw [h3]
  simp only [if_pos, Option.map_some']
  refine congrArg some (Prod.ext ?_ ?_)
  · rw [finish_trailerSize]
    show ((((List.foldl docStep PdfDocument.new cs).writer.write_object _).2.write_object
        _).2).offsets.length + 1 = 3 + docIdCount cs
    rw [two_writes_offsets_len, h2]
    omega
  · rw [finish_next, two_writes_next, h1]
    omega

/-- C1: evaluation of the code at the failing input (the run with no content:
`PdfDocument::new` followed by `finish_document`; every run behaves the same
way in the relevant respects).  The reserved pages id is 1, yet the
reserved-id write path is invoked zero times during the whole run
(`reservedWrites = []`), the pages dictionary body is framed at the freshly
allocated id 2 (`pages_obj_id = 2 ≠ 1`), and the only object frames ever
emitted are for ids 2 and 3 — the reserved id 1 never receives a body,
contradicting the claim that it receives its body via the reserved-id write
path exactly once before the trailer step. -/
theorem c1_reserved_id_never_written :
    (runDoc []).pages_id = 1 ∧
      (PdfDocument.finish_document (runDoc [])).map
          (fun out => (out.writer.reservedWrites, out.pages_obj_id, out.writer.writtenIds)) =
        some ([], 2, [2, 3]) := by
  constructor
  · rfl
  · rfl

/-- C3: evaluation of the code at the failing input (the run with no
content).  The finished run issued ids 1, 2, 3 (`next_obj_id = 4`), and the
cross-reference table's entry for object id 1 — the first offset line after
the free entry — carries offset 9, but the bytes at offset 9 are the start
marker `2 0 obj` of object 2, not `1 0 obj`: offsets are recorded in write
order while the reserved pages id 1 never got a frame, so the k-th offset
line does not belong to the object whose header carries id k. -/
theorem c3_xref_misaligned :
    (PdfDocument.finish_document (runDoc [])).map
        (fun out =>
          (out.writer.next_obj_id,
            out.writer.xrefEntryOffset 1,
            decide (PdfStreamWriter.occursAt out.writer.sink 9 (PdfStreamWriter.startMarker 2)),
            decide (PdfStreamWriter.occursAt out.writer.sink 9 (PdfStreamWriter.startMarker 1)))) =
      some (4, some 9, true, false) := by
  rfl

/-- The media directory `"word/media/"` used both by the entry filter
(image_preprocessor.rs:32) and by the name stripping
(image_preprocessor.rs:76). -/
def mediaDir : List Char := "word/media/".toList

/-- The extension filter of `preprocess_images` (image_preprocessor.rs:33-37):
png, bmp, gif, jpeg, jpg. -/
def supportedExtName (name : List Char) : Bool :=
  (".png".toList).isSuffixOf name || (".bmp".toList).isSuffixOf name
    || (".gif".toList).isSuffixOf name || (".jpeg".toList).isSuffixOf name
    || (".jpg".toList).isSuffixOf name

/-- The already-JPEG test of `process_single_image` (image_preprocessor.rs:85). -/
def isJpegName (name : List Char) : Bool :=
  (".jpg".toList).isSuffixOf name || (".jpeg".toList).isSuffixOf name

/-- `original_path.strip_prefix("word/media/").unwrap_or(original_path)`
(image_preprocessor.rs:75-77). -/
def stripMediaDir (name : List Char) : List Char :=
  if mediaDir.isPrefixOf name then name.drop mediaDir.length else name

/-- Split a path into (directory part including the trailing slash, file
name), i.e. Rust's `Path` file-name decomposition used by `with_extension`. -/
def splitLastSlash (p : List Char) : List Char × List Char :=
  ((p.reverse.dropWhile (fun c => c != '/')).reverse,
    (p.reverse.takeWhile (fun c => c != '/')).reverse)

/-- Rust `Path::file_stem` on a file name: the portion before the extension,
where the extension is what follows the last `'.'` — and a name whose only
`'.'` is its first character (like `".png"`) has no extension, so the stem is
the whole name. -/
def rustFileStem (f : List Char) : List Char :=
  match f.reverse.dropWhile (fun c => c != '.') with
  | [] => f
  | [_] => f
  | _ :: rest => rest.reverse

/-- Rust `path.with_extension("jpg")` (image_preprocessor.rs:80): the file
name's stem followed by `".jpg"`, directory part untouched. -/
def with_extension_jpg (p : List Char) : List Char :=
  (splitLastSlash p).1 ++ rustFileStem (splitLastSlash p).2 ++ ".jpg".toList

/-- The temp file name `process_single_image` derives for an entry
(image_preprocessor.rs:74-82): media prefix stripped, then
`with_extension("jpg")`.  (The join with the temp directory's own path is
not modelled; the claims concern the name within it.) -/
def temp_name (original_path : List Char) : List Char :=
  with_extension_jpg (stripMediaDir original_path)

/-- Decode/encode capabilities abstracted from `process_single_image`:
`decode` models `image::load_from_memory` + `dimensions` + `to_rgb8`
(image_preprocessor.rs:97-103), returning width, height and the raw RGB
bytes, or `none` on decode failure; `encode` models the TurboJPEG pipeline at
fixed quality 50 and 4:2:2 subsampling (image_preprocessor.rs:106-118), or
`none` if any compressor step fails. -/
structure TranscodeEnv where
  decode : List Char → Option (Nat × Nat × List Char)
  encode : Nat → Nat → List Char → Option (List Char)

/-- The two per-image failure modes of `process_single_image`
(`image::load_from_memory` errors, or a TurboJPEG step errors), each carrying
the entry path for observation. -/
inductive ImgErr where
  | decodeFailure (path : List Char) : ImgErr
  | encodeFailure (path : List Char) : ImgErr

/-- `process_single_image` (image_preprocessor.rs:69-122): compute the temp
name; if the entry path ends in `.jpg`/`.jpeg`, copy the bytes through
unchanged; otherwise decode and re-encode, failing on either step.  Returns
(temp file name, bytes written there). -/
def process_single_image (env : TranscodeEnv) (original_path : List Char)
    (data : List Char) : Except ImgErr (List Char × List Char) :=
  let temp_path := temp_name original_path
  if isJpegName original_path then
    .ok (temp_path, data)
  else
    match env.decode data with
    | none => .error (.decodeFailure original_path)
    | some (w, h, pixels) =>
      match env.encode w h pixels with
      | none => .error (.encodeFailure original_path)
      | some jpeg_data => .ok (temp_path, jpeg_data)

/-- The entry-collection pass of `preprocess_images`
(image_preprocessor.rs:23-43): archive entries (modelled as name ↦ bytes
pairs) under the media directory with a supported extension, in index
order. -/
def image_entries (archive : List (List Char × List Char)) :
    List (List Char × List Char) :=
  archive.filter (fun e => mediaDir.isPrefixOf e.1 && supportedExtName e.1)

/-- Rust's `collect::<Result<_, _>>()` over per-entry results
(image_preprocessor.rs:48-61): the whole batch is `Err` as soon as any entry
is `Err`, otherwise the list of successes.  (Under rayon, which error value
wins may depend on scheduling; this embedding returns the leftmost one, and
the claims only depend on ok versus error.) -/
def collectResults {α β ε : Type} (f : α → Except ε β) : List α → Except ε (List β)
  | [] => .ok []
  | a :: l =>
    match f a with
    | .error e => .error e
    | .ok b =>
      match collectResults f l with
      | .error e => .error e
      | .ok bs => .ok (b :: bs)

/-- `preprocess_images` (image_preprocessor.rs:18-67): filter the archive's
media entries, process each one, and collect the per-entry results into a
single `Result` holding the path ↦ temp-location mapping (the `HashMap` is
modelled as the association list keyed by entry path).  The per-task archive
re-opening is modelled by direct access to the entry's bytes. -/
def preprocess_images (env : TranscodeEnv) (archive : List (List Char × List Char)) :
    Except ImgErr (List (List Char × List Char)) :=
  collectResults
    (fun e => (process_single_image env e.1 e.2).map (fun r => (e.1, r.1)))
    (image_entries archive)

theorem except_isOk_map {ε α β : Type} (x : Except ε α) (g : α → β) :
    (x.map g).isOk = x.isOk := by
  cases x <;> rfl

theorem collectResults_isOk {α β ε : Type} (f : α → Except ε β) (l : List α) :
    (collectResults f l).isOk = l.all (fun a => (f a).isOk) := by
  induction l with
  | nil => rfl
  | cons a l ih =>
    rw [List.all_cons]
    cases hfa : f a with
    | error e => simp [collectResults, hfa, Except.isOk, Except.toBool]
    | ok b =>
      cases hcl : collectResults f l with
      | error e =>
        simp [collectResults, hfa, hcl, Except.isOk, Except.toBool] at ih ⊢; exact ih
      | ok bs =>
        simp [collectResults, hfa, hcl, Except.isOk, Except.toBool] at ih ⊢; exact ih

theorem collectResults_ok_map {α β γ : Type} {ε : Type} (f : α → Except ε β)
    (g : β → γ) (h : α → γ) (hf : ∀ a p, f a = .ok p → g p = h a) :
    ∀ (l : List α) (bs : List β), collectResults f l = .ok bs → bs.map g = l.map h := by
  intro l
  induction l with
  | nil => intro bs hbs; cases hbs; rfl
  | cons a l ih =>
    intro bs hbs
    cases hfa : f a with
    | error e => rw [collectResults, hfa] at hbs; exact Except.noConfusion hbs
    | ok b =>
      cases hcl : collectResults f l with
      | error e => rw [collectResults, hfa, hcl] at hbs; exact Except.noConfusion hbs
      | ok bs' =>
        rw [collectResults, hfa, hcl] at hbs
        cases hbs
        rw [List.map_cons, List.map_cons, ih bs' hcl, hf a b hfa]

/-- Bytes of a PNG entry whose decode fails in the concrete scenarios. -/
def badPng : List Char := "BADPNG".toList

/-- Bytes of an entry whose decode succeeds in the concrete scenarios. -/
def goodPng : List Char := "GOODPNG".toList

/-- Concrete transcoder: decoding fails exactly on `badPng`, encoding always
succeeds. -/
def envC4 : TranscodeEnv :=
  { decode := fun d => if d = badPng then none else some (1, 1, "PX".toList)
    encode := fun _ _ _ => some "ENC".toList }

/-- Archive with one undecodable image and one good one. -/
def archiveC4 : List (List Char × List Char) :=
  [("word/media/a.png".toList, badPng), ("word/media/b.png".toList, goodPng)]

/-- C4 (counterexample): with an archive holding an undecodable `a.png` and a
perfectly good `b.png`, `preprocess_images` returns an error for the whole
batch — no mapping at all is produced, so `b.png` is not "still processed and
present" and the single per-image failure did cause a whole-batch error. -/
theorem c4_counterexample :
    preprocess_images envC4 archiveC4
        = .error (.decodeFailure "word/media/a.png".toList) ∧
      (preprocess_images envC4 archiveC4).isOk = false :=
  ⟨rfl, rfl⟩

/-- C4 (amended): a decode/re-encode failure for any entry makes
`preprocess_images` return an error for the whole batch; the mapping is
produced exactly when every qualifying entry processes successfully, and then
it contains every qualifying entry (keyed by its path, in archive order). -/
theorem c4_amended (env : TranscodeEnv) (archive : List (List Char × List Char)) :
    ((preprocess_images env archive).isOk
        = (image_entries archive).all
            (fun e => (process_single_image env e.1 e.2).isOk)) ∧
      ∀ m, preprocess_images env archive = .ok m →
        m.map Prod.fst = (image_entries archive).map Prod.fst := by
  constructor
  · rw [preprocess_images, collectResults_isOk]
    simp only [except_isOk_map]
  · intro m hm
    refine collectResults_ok_map _ Prod.fst Prod.fst ?_ _ m hm
    intro a p hp
    cases hps : process_single_image env a.1 a.2 with
    | error e =>
      rw [hps] at hp
      exact Except.noConfusion hp
    | ok r =>
      rw [hps] at hp
      have hpr : (a.1, r.1) = p := Except.ok.inj hp
      rw [← hpr]

/-- Archive with one good already-JPEG entry, for the C4 witness. -/
def archiveC4w : List (List Char × List Char) :=
  [("word/media/b.jpg".toList, "JD".toList)]

theorem c4_amended_witness :
    preprocess_images envC4 archiveC4w
        = .ok [("word/media/b.jpg".toList, "b.jpg".toList)] ∧
      [("word/media/b.jpg".toList, "b.jpg".toList)].map Prod.fst
        = (image_entries archiveC4w).map Prod.fst :=
  ⟨rfl, (c4_amended envC4 archiveC4w).2 _ rfl⟩

theorem dropWhile_append_all {p : Char → Bool} {l₁ : List Char} (l₂ : List Char)
    (h : ∀ c ∈ l₁, p c = true) : (l₁ ++ l₂).dropWhile p = l₂.dropWhile p := by
  induction l₁ with
  | nil => rfl
  | cons a l ih =>
    have ha : p a = true := h a (List.mem_cons_self a l)
    rw [List.cons_append, List.dropWhile_cons, if_pos ha]
    exact ih (fun c hc => h c (List.mem_cons_of_mem a hc))

theorem splitLastSlash_no_slash (f : List Char) (h : '/' ∉ f) :
    splitLastSlash f = ([], f) := by
  unfold splitLastSlash
  have hall : ∀ c ∈ f.reverse, (c != '/') = true := by
    intro c hc
    have hcf : c ∈ f := List.mem_reverse.mp hc
    simp only [bne_iff_ne]
    exact fun he => h (he ▸ hcf)
  rw [List.dropWhile_eq_nil_iff.mpr hall, List.takeWhile_eq_self_iff.mpr hall]
  simp

theorem rustFileStem_sep (stem tail : List Char) (hstem : stem ≠ [])
    (htail : '.' ∉ tail) : rustFileStem (stem ++ '.' :: tail) = stem := by
  unfold rustFileStem
  have hrev : (stem ++ '.' :: tail).reverse = tail.reverse ++ '.' :: stem.reverse := by
    simp
  rw [hrev]
  have hall : ∀ c ∈ tail.reverse, (c != '.') = true := by
    intro c hc
    have hct : c ∈ tail := List.mem_reverse.mp hc
    simp only [bne_iff_ne]
    exact fun he => htail (he ▸ hct)
  rw [dropWhile_append_all _ hall]
  have hstop : ('.' :: stem.reverse).dropWhile (fun c => c != '.') = '.' :: stem.reverse := by
    rw [List.dropWhile_cons, if_neg (by simp)]
  rw [hstop]
  obtain ⟨c, cs, hcs⟩ : ∃ c cs, stem.reverse = c :: cs := by
    cases hsr : stem.reverse with
    | nil => exact absurd (List.reverse_eq_nil_iff.mp hsr) hstem
    | cons c cs => exact ⟨c, cs, rfl⟩
  rw [hcs]
  show (c :: cs).reverse = stem
  rw [← hcs, List.reverse_reverse]

theorem temp_name_sep (stem tail : List Char) (hstem : stem ≠ []) (hdot : '.' ∉ tail)
    (hs1 : '/' ∉ stem) (hs2 : '/' ∉ tail) :
    temp_name (mediaDir ++ (stem ++ '.' :: tail)) = stem ++ ".jpg".toList := by
  unfold temp_name stripMediaDir
  have hp : mediaDir.isPrefixOf (mediaDir ++ (stem ++ '.' :: tail)) = true := by
    rw [List.isPrefixOf_iff_prefix]
    exact List.prefix_append _ _
  rw [if_pos hp, List.drop_left]
  unfold with_extension_jpg
  have hnos : '/' ∉ stem ++ '.' :: tail := by
    intro hmem
    rcases List.mem_append.mp hmem with hm | hm
    · exact hs1 hm
    · rcases List.mem_cons.mp hm with hm | hm
      · exact absurd hm (by decide)
      · exact hs2 hm
  rw [splitLastSlash_no_slash _ hnos]
  show [] ++ rustFileStem (stem ++ '.' :: tail) ++ ".jpg".toList = stem ++ ".jpg".toList
  rw [rustFileStem_sep stem tail hstem hdot, List.nil_append]

/-- Concrete transcoder whose decode and encode always succeed. -/
def envJpegOk : TranscodeEnv :=
  { decode := fun _ => some (1, 1, "PX".toList)
    encode := fun _ _ _ => some "ENC".toList }

/-- The output file name as claim C10's words describe it: "the entry path
with the media-directory prefix stripped and the extension replaced by
`.jpg`", reading "the extension" as the dot-suffix the entry was selected
by.  This definition follows the claim's words, for comparison with the
code's `temp_name`. -/
def claimTempName (p : List Char) : List Char :=
  let s := stripMediaDir p
  if (".jpeg".toList).isSuffixOf s then s.take (s.length - 5) ++ ".jpg".toList
  else if supportedExtName s then s.take (s.length - 4) ++ ".jpg".toList
  else s

/-- C10 (counterexample): the supported entry `word/media/.png` (a bare
dot-name, selected by the `.png` filter) is transcoded to the temp file named
`.png.jpg`, not `.jpg` as "the extension replaced by .jpg" prescribes:
Rust's `Path::with_extension` treats `.png` as a file name with no extension
and appends instead of replacing. -/
theorem c10_counterexample :
    (process_single_image envJpegOk "word/media/.png".toList "PNGDATA".toList).map
        Prod.fst = .ok ".png.jpg".toList ∧
      claimTempName "word/media/.png".toList = ".jpg".toList ∧
      (".png.jpg".toList == ".jpg".toList) = false :=
  ⟨rfl, rfl, rfl⟩

/-- C10 (amended): entries ending in `.jpg`/`.jpeg` are copied through
byte-identical and independently of the decode/encode capabilities (never
decoded); every other entry is decoded and re-encoded, with the output bytes
coming from the encoder; the output file name is the prefix-stripped entry
path with its extension replaced by `.jpg` whenever the file name has a
non-empty stem before the final dot, while a bare dot-name such as `.png`
gets `.jpg` appended instead (`.png.jpg`), per `Path::with_extension`. -/
theorem c10_amended :
    (∀ env env' : TranscodeEnv, ∀ p data : List Char, isJpegName p = true →
        process_single_image env p data = .ok (temp_name p, data) ∧
          process_single_image env p data = process_single_image env' p data) ∧
      (∀ (env : TranscodeEnv) (p data : List Char), isJpegName p = false →
        process_single_image env p data =
          match env.decode data with
          | none => .error (.decodeFailure p)
          | some (w, h, pixels) =>
            match env.encode w h pixels with
            | none => .error (.encodeFailure p)
            | some jpeg_data => .ok (temp_name p, jpeg_data)) ∧
      (∀ stem tail : List Char, stem ≠ [] → '.' ∉ tail → '/' ∉ stem → '/' ∉ tail →
        temp_name (mediaDir ++ (stem ++ '.' :: tail)) = stem ++ ".jpg".toList) ∧
      temp_name "word/media/.png".toList = ".png.jpg".toList := by
  refine ⟨?_, ?_, temp_name_sep, rfl⟩
  · intro env env' p data h
    constructor <;> simp [process_single_image, h]
  · intro env p data h
    simp [process_single_image, h]

theorem c10_amended_witness :
    (isJpegName "word/media/pic.jpg".toList = true ∧
        process_single_image envJpegOk "word/media/pic.jpg".toList "JD".toList
          = .ok (temp_name "word/media/pic.jpg".toList, "JD".toList)) ∧
      (isJpegName "word/media/pic.png".toList = false ∧
        process_single_image envJpegOk "word/media/pic.png".toList "PD".toList
          = .ok (temp_name "word/media/pic.png".toList, "ENC".toList)) ∧
      temp_name (mediaDir ++ ("pic".toList ++ '.' :: "png".toList))
        = "pic".toList ++ ".jpg".toList :=
  ⟨⟨rfl, (c10_amended.1 envJpegOk envJpegOk "word/media/pic.jpg".toList "JD".toList rfl).1⟩,
    ⟨rfl, c10_amended.2.1 envJpegOk "word/media/pic.png".toList "PD".toList rfl⟩,
    c10_amended.2.2.1 "pic".toList "png".toList (by decide) (by decide)
      (by decide) (by decide)⟩

/-- The XML events `parse_document_xml` dispatches on (main.rs:63-190),
mirroring quick_xml's `Event::Text` / `Event::Start` / `Event::End` /
`Event::Empty`; end of input (`Event::Eof`) is the end of the event list.
Event kinds the source ignores through its wildcard arm (comments, CData,
declarations) are omitted — they leave the state untouched.  `text` carries
the already-unescaped text (`e.unescape().unwrap_or_default()`), and names
and attribute keys/values carry the element bytes as strings. -/
inductive XmlEvent where
  | text (t : String) : XmlEvent
  | start (name : String) (attrs : List (String × String)) : XmlEvent
  | stop (name : String) : XmlEvent
  | empty (name : String) (attrs : List (String × String)) : XmlEvent

/-- Rust `ends_with` on an element or attribute-key byte string
(main.rs:113,118,162,167), as the suffix relation on the characters. -/
def xmlEndsWith (name pat : String) : Bool := (pat.toList).isSuffixOf name.toList

/-- The drawing-container names of main.rs:109 and main.rs:140:
`w:drawing`, `wp:inline`, `wp:extent`. -/
def isDrawingName (n : String) : Bool :=
  n == "w:drawing" || n == "wp:inline" || n == "wp:extent"

/-- The walker's capabilities: `media_lookup` resolves a relationship id to
an image path (main.rs:274-292, passed into `parse_document_xml`), and
`openImage` models opening that image (`archive.by_name(&path)?`,
main.rs:174) together with the data handed to `new_img_obj` — `none` means
the open fails and the `?` operator propagates the error. -/
structure WalkEnv where
  media_lookup : String → Option String
  openImage : String → Option (List Char × Nat × Nat × Nat)

/-- The one walker failure modelled on its fallible path: the image file
named by a resolved path cannot be opened (main.rs:174's `?`). -/
inductive WalkErr where
  | fileOpen (path : String) : WalkErr

/-- The walker's mutable state (main.rs:38-44) plus the `PdfDocument` it
drives. -/
structure WalkState where
  doc : PdfDocument
  current_text : String
  in_drawing : Bool
  seen_rid : List String
  current_page_objs : List Nat
  current_page_img_objs : List (Nat × Nat)

/-- State at the start of the walk: fresh `PdfDocument` (created by the
caller, main.rs-style), empty accumulator, not in a drawing, nothing seen or
pending. -/
def initWalkState : WalkState :=
  { doc := PdfDocument.new
    current_text := ""
    in_drawing := false
    seen_rid := []
    current_page_objs := []
    current_page_img_objs := [] }

/-- Page flush performed at a page-break or section marker
(main.rs:92-95,103-105,153-157): request a page object from the pending
lists, then clear both. -/
def flushPage (s : WalkState) : WalkState :=
  { s with
    doc := (s.doc.new_page_obj s.current_page_objs s.current_page_img_objs).2
    current_page_objs := []
    current_page_img_objs := [] }

/-- The `w:br` attribute loop (main.rs:89-97 and main.rs:150-158): one flush
per attribute with key `w:type` and value `page`. -/
def brPageBreaks (attrs : List (String × String)) (s : WalkState) : WalkState :=
  attrs.foldl (fun st a => if a.1 == "w:type" && a.2 == "page" then flushPage st else st) s

/-- Outcome of resolving a not-yet-seen image relationship id
(main.rs:172-182): no mapping → skip, only marking the id seen; mapping but
unopenable file → the `?` aborts the walk; mapping and readable file →
request an image object, append its id pair, mark the id seen. -/
def blipResolve (env : WalkEnv) (s : WalkState) (rid : String) :
    Except WalkErr WalkState :=
  match env.media_lookup rid with
  | some path =>
    match env.openImage path with
    | none => .error (.fileOpen path)
    | some (data, wpx, hpx, len) =>
      let r := s.doc.new_img_obj data wpx hpx len
      .ok { s with
        doc := r.2
        current_page_img_objs := s.current_page_img_objs ++ [r.1]
        seen_rid := s.seen_rid ++ [rid] }
  | none => .ok { s with seen_rid := s.seen_rid ++ [rid] }

/-- The blip branch shared by the `Start` and `Empty` arms
(main.rs:113-135 and main.rs:162-184): find the first attribute whose key
ends in `embed`; if its value is an unseen relationship id, resolve it.
(The source marks the id seen after either branch of the lookup; on the
error path the walk aborts before the insert, which is unobservable.) -/
def handleBlip (env : WalkEnv) (attrs : List (String × String)) (s : WalkState) :
    Except WalkErr WalkState :=
  match attrs.find? (fun a => xmlEndsWith a.1 "embed") with
  | none => .ok s
  | some a =>
    if s.seen_rid.contains a.2 then .ok s
    else blipResolve env s a.2

/-- One iteration of `parse_document_xml`'s event loop (main.rs:63-190).
The source's `new_img_obj(f, image_format)` call does not match
`new_img_obj`'s declared signature (a slip in the source); the embedding
passes the opened image's data and dimensions per the declared signature. -/
def walkStep (env : WalkEnv) (s : WalkState) : XmlEvent → Except WalkErr WalkState
  | .text t =>
    .ok (if s.in_drawing then s
      else { s with current_text := s.current_text ++ t ++ " " })
  | .stop n =>
    if n = "w:p" then
      let s1 :=
        if s.current_text.trim = "" then s
        else
          let r := s.doc.new_text_obj s.current_text.trim
          { s with doc := r.2, current_page_objs := s.current_page_objs ++ [r.1] }
      .ok { s1 with current_text := "" }
    else .ok (if isDrawingName n then { s with in_drawing := false } else s)
  | .start n attrs =>
    let s1 := if n = "w:br" then brPageBreaks attrs s else s
    let s2 := if n = "w:sectPr" then flushPage s1 else s1
    let s3 := if isDrawingName n then { s2 with in_drawing := true } else s2
    if xmlEndsWith n "blip" then handleBlip env attrs s3 else .ok s3
  | .empty n attrs =>
    let s1 := if n = "w:br" then brPageBreaks attrs s else s
    if xmlEndsWith n "blip" then handleBlip env attrs s1 else .ok s1

/-- The whole event loop, from the initial state. -/
def walkSteps (env : WalkEnv) (evs : List XmlEvent) : Except WalkErr WalkState :=
  evs.foldlM (walkStep env) initWalkState

/-- `parse_document_xml` (main.rs:19-195): the event loop followed by the
unconditional trailing `new_page_obj` of main.rs:193 ("writes any remaining
objects"), which does not clear the pending lists. -/
def parse_document_xml (env : WalkEnv) (evs : List XmlEvent) :
    Except WalkErr WalkState :=
  (walkSteps env evs).map (fun s =>
    { s with doc := (s.doc.new_page_obj s.current_page_objs s.current_page_img_objs).2 })

/-- Capabilities under which every lookup fails. -/
def envNone : WalkEnv :=
  { media_lookup := fun _ => none, openImage := fun _ => none }

/-- Capabilities mapping `rId1` to an image path whose file cannot be
opened. -/
def envRid1 : WalkEnv :=
  { media_lookup := fun r => if r = "rId1" then some "word/media/x.png" else none
    openImage := fun _ => none }

/-- C5 (counterexample): a self-closing section-properties element does not
flush a page, while the paired (start-tag) form does — the run whose only
event is `<w:sectPr/>` produces 1 page object (just the unconditional
trailing one), while the run whose only event is `<w:sectPr>` produces 2.
The handling is therefore not identical between the two forms. -/
theorem c5_counterexample :
    (parse_document_xml envNone [.empty "w:sectPr" []]).map
        (fun s => s.doc.page_ids.length) = .ok 1 ∧
      (parse_document_xml envNone [.start "w:sectPr" []]).map
        (fun s => s.doc.page_ids.length) = .ok 2 :=
  ⟨rfl, rfl⟩

/-- C5 (amended): a page-break element carrying a page-type attribute
requests a page object from the pending lists and clears them, identically
in self-closing and paired form; a section-properties element does so only
in paired (start-tag) form — its self-closing form is ignored. -/
theorem c5_amended :
    (∀ (env : WalkEnv) (s : WalkState) (attrs : List (String × String)),
        walkStep env s (.start "w:br" attrs) = walkStep env s (.empty "w:br" attrs)) ∧
      (∀ (env : WalkEnv) (s : WalkState) (attrs : List (String × String)),
        walkStep env s (.start "w:sectPr" attrs) = .ok (flushPage s)) ∧
      (∀ (env : WalkEnv) (s : WalkState) (attrs : List (String × String)),
        walkStep env s (.empty "w:sectPr" attrs) = .ok s) :=
  ⟨fun _ _ _ => rfl, fun _ _ _ => rfl, fun _ _ _ => rfl⟩

/-- C6 (counterexample): on the empty document both pending lists are empty
at end of input, yet the walker still emits a final page object — the claim
that the final page is emitted only when something is pending fails, and a
document ending exactly at a page boundary gains an empty trailing page. -/
theorem c6_counterexample :
    (parse_document_xml envNone []).map
        (fun s => (s.doc.page_ids.length, s.current_page_objs, s.current_page_img_objs))
      = .ok (1, [], []) :=
  rfl

theorem new_page_obj_pages_len (d : PdfDocument) (a : List Nat) (b : List (Nat × Nat)) :
    ((d.new_page_obj a b).2).page_ids.length = d.page_ids.length + 1 := by
  show (d.page_ids ++ [(d.new_page_obj a b).1]).length = d.page_ids.length + 1
  simp

/-- C6 (amended): at end of input the walker always emits exactly one final
page object from whatever is pending — also when both pending lists are
empty: for every run that reaches end of input, the finished page count is
the in-loop page count plus one. -/
theorem c6_amended (env : WalkEnv) (evs : List XmlEvent) :
    (parse_document_xml env evs).map (fun s => s.doc.page_ids.length)
      = (walkSteps env evs).map (fun s => s.doc.page_ids.length + 1) := by
  unfold parse_document_xml
  cases h : walkSteps env evs with
  | error e => rfl
  | ok s =>
    show Except.ok ((s.doc.new_page_obj s.current_page_objs
        s.current_page_img_objs).2).page_ids.length
      = Except.ok (s.doc.page_ids.length + 1)
    rw [new_page_obj_pages_len]

/-- C7 (counterexample): an image reference whose relationship id resolves to
a path whose file cannot be opened aborts the whole walk with an error — it
is not recovered by skipping, contradicting "neither failure mode causes the
walk to return an error". -/
theorem c7_counterexample :
    parse_document_xml envRid1 [.empty "a:blip" [("r:embed", "rId1")]]
      = .error (.fileOpen "word/media/x.png") :=
  rfl

/-- C7 (amended): for an image-reference marker carrying an embed attribute
with an unseen relationship id, the walker behaves as `blipResolve`: a
missing relationship mapping is recovered by skipping the reference (only
the seen-set grows) and the pass continues, but a resolved path whose image
file cannot be opened aborts the walk with an error instead of being
skipped. -/
theorem c7_amended (env : WalkEnv) (s : WalkState) (n : String)
    (attrs : List (String × String)) (a : String × String)
    (h1 : xmlEndsWith n "blip" = true)
    (h2 : attrs.find? (fun a => xmlEndsWith a.1 "embed") = some a)
    (h3 : s.seen_rid.contains a.2 = false) :
    walkStep env s (.empty n attrs) = blipResolve env s a.2 := by
  have hbr : ¬ (n = "w:br") := by
    intro he
    subst he
    exact absurd h1 (by decide)
  show (let s1 := if n = "w:br" then brPageBreaks attrs s else s
    if xmlEndsWith n "blip" then handleBlip env attrs s1 else .ok s1)
      = blipResolve env s a.2
  rw [if_neg hbr, h1, if_pos rfl]
  unfold handleBlip
  rw [h2]
  show (if s.seen_rid.contains a.2 = true then Except.ok s else blipResolve env s a.2)
    = blipResolve env s a.2
  rw [h3]
  simp

theorem c7_amended_witness :
    xmlEndsWith "a:blip" "blip" = true ∧
      ([("r:embed", "rId1")].find? (fun a => xmlEndsWith a.1 "embed")
        = some ("r:embed", "rId1")) ∧
      initWalkState.seen_rid.contains "rId1" = false ∧
      walkStep envRid1 initWalkState (.empty "a:blip" [("r:embed", "rId1")])
        = .error (.fileOpen "word/media/x.png") :=
  ⟨rfl, rfl, rfl,
    c7_amended envRid1 initWalkState "a:blip" [("r:embed", "rId1")]
      ("r:embed", "rId1") rfl rfl rfl⟩

/-- C8 (counterexample): in the trace `<w:drawing><wp:inline></wp:inline>
x</w:drawing>`, the text token `x` sits between the outer drawing
container's start marker and its matching end marker, yet it IS appended to
the paragraph accumulator (the accumulator ends up `"x "`): the single
in-drawing flag was already cleared by the nested inner container's end. -/
theorem c8_counterexample :
    (walkSteps envNone [.start "w:drawing" [], .start "wp:inline" [],
        .stop "wp:inline", .text "x", .stop "w:drawing"]).map
      (fun s => s.current_text) = .ok "x " :=
  rfl

/-- C8 (amended): text capture is suppressed exactly while the single
in-drawing flag is set, and the flag is cleared by the first end marker of
any drawing-container name — including a nested inner container's end — so a
text token arriving right after an inner container closes is appended (with
its trailing separator space) even though the outer container is still
open. -/
theorem c8_amended (env : WalkEnv) (s : WalkState) (t : String) :
    ((walkStep env s (.stop "wp:inline")).bind
        (fun s1 => walkStep env s1 (.text t))
      = .ok { s with
          in_drawing := false
          current_text := s.current_text ++ t ++ " " }) ∧
      walkStep env s (.text t)
        = .ok (if s.in_drawing then s
            else { s with current_text := s.current_text ++ t ++ " " }) :=
  ⟨rfl, rfl⟩
